import Mathlib

/-!
Verification of the LTX2 TI2V lipsync RunPod worker
(`src/rp_handler.py`, `src/comfyui_api.py`, `src/storage.py`, `src/utils.py`).

The Python code manipulates JSON dictionaries (job input, ComfyUI workflow
graphs, ComfyUI history replies).  We embed JSON values as an inductive
`Json`; Python distinguishes `int`, `float` and `bool` (with
`isinstance(b, int)` true for booleans), so the embedding keeps the three
apart.  Numbers are embedded as `Int` / `Rat`.
-/

namespace LTX2

/-- JSON values as produced by Python's `json` module: `null`, booleans,
integers, floats (embedded as rationals), strings, arrays and objects
(association lists in insertion order, keys unique). -/
inductive Json where
  | null : Json
  | bool (b : Bool) : Json
  | int (i : Int) : Json
  | float (q : Rat) : Json
  | str (s : String) : Json
  | arr (xs : List Json) : Json
  | obj (fields : List (String × Json)) : Json

/-- Python dict lookup `d.get(k)` on an object: first binding of the key. -/
def Json.get? : Json → String → Option Json
  | .obj fields, k => List.lookup k fields
  | _, _ => none

/-- Python `d.get(k, default)`. -/
def Json.getD (j : Json) (k : String) (d : Json) : Json :=
  (j.get? k).getD d

/-- Python `k in d` for a dict. -/
def Json.hasKey (j : Json) (k : String) : Bool :=
  (j.get? k).isSome

/-- Assignment `d[k] = v` on an association list: replace the first binding
in place, append at the end when the key is absent (Python dict semantics). -/
def setKeyList {β : Type} : List (String × β) → String → β → List (String × β)
  | [], k, v => [(k, v)]
  | (k', v') :: rest, k, v =>
      if k' = k then (k, v) :: rest else (k', v') :: setKeyList rest k v

/-- Assignment `d[k] = v` on a `Json` object; on a non-object Python raises,
the model leaves the value unchanged (theorems about this case carry
object-shape hypotheses). -/
def Json.setKey : Json → String → Json → Json
  | .obj fields, k, v => .obj (setKeyList fields k v)
  | j, _, _ => j

/-- Python `d.update(kvs)`: sequential assignments in order. -/
def Json.setKeys : Json → List (String × Json) → Json
  | j, [] => j
  | j, (k, v) :: rest => (j.setKey k v).setKeys rest

/-- Python equality test `j == s` against a string literal: true exactly for
the equal string. -/
def Json.eqStr : Json → String → Bool
  | .str s, t => s = t
  | _, _ => false

/-- Python truthiness of a JSON value (`if x:`). -/
def pyTruthy : Json → Bool
  | .null => false
  | .bool b => b
  | .int i => i ≠ 0
  | .float q => q ≠ 0
  | .str s => s ≠ ""
  | .arr xs => ¬ xs.isEmpty
  | .obj fields => ¬ fields.isEmpty

/-- Python `isinstance(v, (int, float))`; booleans pass because `bool` is a
subclass of `int` in Python. -/
def isNumber : Json → Bool
  | .int _ => true
  | .float _ => true
  | .bool _ => true
  | _ => false

/-- Python `isinstance(v, str)`. -/
def isStr : Json → Bool
  | .str _ => true
  | _ => false

/-- Numeric value of a JSON number for comparisons (`True == 1`,
`False == 0`). -/
def toRat : Json → Rat
  | .int i => (i : Rat)
  | .float q => q
  | .bool b => if b then 1 else 0
  | _ => 0

/-- Python `s.strip()`: drop whitespace from both ends (structurally, on the
character list). -/
def pyStrip (s : String) : String :=
  String.mk (((s.data.dropWhile Char.isWhitespace).reverse.dropWhile
    Char.isWhitespace).reverse)

/-- Python `s.startswith(t)`. -/
def strStarts (s t : String) : Bool :=
  t.data.isPrefixOf s.data

/-- Python `s.lower()` (ASCII, which covers the extensions involved). -/
def pyLower (s : String) : String :=
  String.mk (s.data.map Char.toLower)

/-- A Python exception, reduced to its class name and `str(e)` message. -/
structure PyExn where
  ty : String
  msg : String
deriving DecidableEq

/-!  ## `src/utils.py`  -/

/-- `validate_input`'s check on `prompt`: a string that is non-empty after
stripping whitespace (`isinstance(prompt, str)` and `len(prompt.strip()) > 0`). -/
def promptOk : Json → Bool
  | .str s => pyStrip s ≠ ""
  | _ => false

/-- `validate_input`'s check on `audio_url`:
`isinstance(u, str) and u.startswith(('http://', 'https://'))`. -/
def urlOk : Json → Bool
  | .str s => strStarts s "http://" || strStarts s "https://"
  | _ => false

/-- The `numeric_fields` table of `validate_input`: field name, inclusive
bounds, and the out-of-range message rendered by the f-string
(`str(1.0)` prints as `1.0`, hence the literal messages). -/
def numericFields : List (String × Rat × Rat × String) :=
  [("num_frames", 1, 1000, "'num_frames' must be between 1 and 1000"),
   ("fps", 1, 60, "'fps' must be between 1 and 60"),
   ("width", 64, 2048, "'width' must be between 64 and 2048"),
   ("height", 64, 2048, "'height' must be between 64 and 2048"),
   ("cfg_scale", 1, 30, "'cfg_scale' must be between 1.0 and 30.0"),
   ("steps", 1, 150, "'steps' must be between 1 and 150"),
   ("seed", -1, 2147483647, "'seed' must be between -1 and 2147483647")]

/-- The `for field in numeric_fields` loop of `validate_input`: first failing
field yields its message, otherwise `None`. -/
def checkNumericFields (input : List (String × Json)) :
    List (String × Rat × Rat × String) → Option String
  | [] => none
  | (f, lo, hi, msg) :: rest =>
      match List.lookup f input with
      | none => checkNumericFields input rest
      | some v =>
          if isNumber v = false then some ("'" ++ f ++ "' must be a number")
          else if lo ≤ toRat v ∧ toRat v ≤ hi then checkNumericFields input rest
          else some msg

/-- `utils.validate_input`: returns `none` when the job input is valid,
otherwise the first error message, in the source's check order. -/
def validate_input (input : List (String × Json)) : Option String :=
  match List.lookup "prompt" input with
  | none => some "Missing required field: 'prompt'"
  | some prompt =>
    match List.lookup "audio_url" input with
    | none => some "Missing required field: 'audio_url'"
    | some audio_url =>
      if promptOk prompt = false then some "'prompt' must be a non-empty string"
      else if urlOk audio_url = false then some "'audio_url' must be a valid HTTP(S) URL"
      else
        match checkNumericFields input numericFields with
        | some msg => some msg
        | none =>
          match List.lookup "reference_image_url" input with
          | none => none
          | some ref =>
              if pyTruthy ref ∧ isStr ref = false then
                some "'reference_image_url' must be a string"
              else if pyTruthy ref ∧ urlOk ref = false then
                some "'reference_image_url' must be a valid HTTP(S) URL"
              else none

/-- One numeric field being acceptable, as the claim words it: absent, or a
number (Python counts booleans) within its inclusive bounds. -/
def fieldOkSpec (input : List (String × Json)) :
    String × Rat × Rat × String → Bool
  | (f, lo, hi, _) =>
      match List.lookup f input with
      | none => true
      | some v => isNumber v && decide (lo ≤ toRat v) && decide (toRat v ≤ hi)

/-- Validity of a job input as the claim words it: a `prompt` that is a
non-empty string after stripping, an `audio_url` string starting with
`http://` or `https://`, every present numeric field within its bound, and
any non-empty (truthy) `reference_image_url` a string starting with
`http://` or `https://`.  Written from the claim, to be compared with
`validate_input`. -/
def specValid (input : List (String × Json)) : Bool :=
  (match List.lookup "prompt" input with
   | some p => promptOk p
   | none => false) &&
  (match List.lookup "audio_url" input with
   | some u => urlOk u
   | none => false) &&
  numericFields.all (fieldOkSpec input) &&
  (match List.lookup "reference_image_url" input with
   | none => true
   | some ref => !pyTruthy ref || urlOk ref)

/-- Every message `validate_input` can return; each one names the field it
rejects. -/
def validationMessages : List String :=
  ["Missing required field: 'prompt'",
   "Missing required field: 'audio_url'",
   "'prompt' must be a non-empty string",
   "'audio_url' must be a valid HTTP(S) URL",
   "'num_frames' must be a number", "'num_frames' must be between 1 and 1000",
   "'fps' must be a number", "'fps' must be between 1 and 60",
   "'width' must be a number", "'width' must be between 64 and 2048",
   "'height' must be a number", "'height' must be between 64 and 2048",
   "'cfg_scale' must be a number", "'cfg_scale' must be between 1.0 and 30.0",
   "'steps' must be a number", "'steps' must be between 1 and 150",
   "'seed' must be a number", "'seed' must be between -1 and 2147483647",
   "'reference_image_url' must be a string",
   "'reference_image_url' must be a valid HTTP(S) URL"]

/-- Python `int(x)`: truncation toward zero. -/
def pyIntTrunc (q : Rat) : Int :=
  if 0 ≤ q then q.floor else q.ceil

/-- `utils.calculate_num_frames`: `int(duration * fps)` clamped by
`max(24, min(num_frames, 1000))`. -/
def calculate_num_frames (duration : Rat) (fps : Rat) : Int :=
  max 24 (min (pyIntTrunc (duration * fps)) 1000)

/-- Outcome of the `ffprobe` subprocess run with `check=True`: either the
captured stdout, or the `CalledProcessError` raised on a non-zero exit. -/
inductive ProbeOutcome where
  | ok (stdout : String) : ProbeOutcome
  | calledProcessError : ProbeOutcome

/-- `utils.get_duration_from_audio`, abstracted over the probe outcome and
over Python's `float` string parser (`parseFloat s = none` models the
`ValueError`): both failure modes are caught and return the default `5.0`. -/
def get_duration_from_audio (probe : ProbeOutcome)
    (parseFloat : String → Option Rat) : Rat :=
  match probe with
  | .calledProcessError => 5
  | .ok out =>
      match parseFloat (pyStrip out) with
      | none => 5
      | some d => d

/-!  ## `src/comfyui_api.py`  -/

/-- An HTTP request issued by `ComfyUIClient._make_request`. -/
structure HttpRequest where
  method : String
  endpoint : String
  body : Json

/-- `ComfyUIClient.queue_prompt`, given the server's JSON reply: the request
it issues (POST `/prompt` with the workflow under `prompt` plus the fixed
`client_id`), and either the reply's `prompt_id` or the `ValueError` raised
when that field is absent or falsy. -/
def queue_prompt (workflow : Json) (reply : Json) : HttpRequest × Except PyExn Json :=
  let payload := Json.obj [("prompt", workflow), ("client_id", Json.str "runpod_handler")]
  let pid := reply.getD "prompt_id" .null
  (⟨"POST", "/prompt", payload⟩,
   if pyTruthy pid then .ok pid
   else .error ⟨"ValueError", "No prompt_id returned from ComfyUI"⟩)

/-- `status.get('status_str') == 'success'` with `status = history.get('status', {})`. -/
def statusSuccess (history : Json) : Bool :=
  ((history.getD "status" (.obj [])).getD "status_str" .null).eqStr "success"

/-- The timeout result of `wait_for_completion`. -/
def errTimeout : Json := Json.obj [("error", Json.str "Execution timeout")]

/-- The per-poll decision of `wait_for_completion` on a present history:
an `error` entry returns failure with that entry (checked first), a
`status_str` of `success` or an `outputs` key returns success with the
history, anything else keeps polling (`none`). -/
def checkHistory (history : Json) : Option (Bool × Json) :=
  if (history.get? "error").isSome then
    some (false, Json.obj [("error", history.getD "error" .null)])
  else if statusSuccess history || history.hasKey "outputs" then
    some (true, history)
  else
    none

/-- The `while True` loop of `wait_for_completion`, instrumented.  `histAt k`
is the server's history reply to the `k`-th poll (`none` when the reply has
no entry for the prompt, i.e. `get_history` returned a falsy value);
`elapsed` is the time at the top of the iteration, advancing by
`check_interval` per iteration (the `time.sleep`).  Fuel bounds the
recursion; `(none, _)` means the fuel ran out, modelling divergence.  The
second component lists the elapsed times at which the loop polled the
history endpoint. -/
def waitFuel (histAt : Nat → Option Json) (timeout c : Nat) :
    Nat → Nat → Nat → Option (Bool × Json) × List Nat
  | 0, _, _ => (none, [])
  | fuel + 1, k, elapsed =>
      if timeout < elapsed then (some (false, errTimeout), [])
      else
        match (histAt k).bind checkHistory with
        | some r => (some r, [elapsed])
        | none =>
            let rest := waitFuel histAt timeout c fuel (k + 1) (elapsed + c)
            (rest.1, elapsed :: rest.2)

/-- `ComfyUIClient.wait_for_completion`, run with enough fuel to cover the
whole timeout window. -/
def wait_for_completion (histAt : Nat → Option Json) (timeout c : Nat) :
    Option (Bool × Json) × List Nat :=
  waitFuel histAt timeout c (timeout / c + 2) 0 0

/-- The elapsed times at which the loop polls, as a standalone recurrence:
poll at `e` whenever `e ≤ timeout`, then again `c` later. -/
def pollTimes (timeout c : Nat) : Nat → Nat → List Nat
  | 0, _ => []
  | fuel + 1, e => if timeout < e then [] else e :: pollTimes timeout c fuel (e + c)

/-!  ## `src/storage.py`  -/

/-- The configuration of an `S3StorageManager`: bucket, optional custom
endpoint, region. -/
structure S3Config where
  bucket : String
  endpoint : Option String
  region : String

/-- Python `str.rstrip('/')`. -/
def rstripSlash (s : String) : String :=
  String.mk (s.data.reverse.dropWhile (fun ch => ch = '/')).reverse

/-- `pathlib.PurePath.suffix`: on the final path component (the characters
after the last `/`), the extension `name[i:]` for `i` the position of the
last dot when `0 < i < len(name) - 1`, else the empty string. -/
def pySuffix (path : String) : String :=
  let name := (path.data.reverse.takeWhile (fun ch => ch ≠ '/')).reverse
  match name.reverse.findIdx? (fun ch => ch = '.') with
  | some j =>
      let i := name.length - 1 - j
      if 0 < i ∧ i < name.length - 1 then String.mk (name.drop i) else ""
  | none => ""

/-- The `content_types` table of `S3StorageManager._get_content_type`. -/
def content_types : List (String × String) :=
  [(".mp4", "video/mp4"), (".avi", "video/x-msvideo"), (".mov", "video/quicktime"),
   (".webm", "video/webm"), (".mp3", "audio/mpeg"), (".wav", "audio/wav"),
   (".jpg", "image/jpeg"), (".jpeg", "image/jpeg"), (".png", "image/png"),
   (".gif", "image/gif"), (".json", "application/json"), (".txt", "text/plain")]

/-- `S3StorageManager._get_content_type`: look the lowercased suffix up in
the table. -/
def get_content_type (file_path : String) : Option String :=
  List.lookup (pyLower (pySuffix file_path)) content_types

/-- `S3StorageManager._generate_url`: custom-endpoint URL when an endpoint
is configured, the standard AWS URL otherwise. -/
def generate_url (cfg : S3Config) (s3_key : String) : String :=
  match cfg.endpoint with
  | some ep => rstripSlash ep ++ "/" ++ cfg.bucket ++ "/" ++ s3_key
  | none => "https://" ++ cfg.bucket ++ ".s3." ++ cfg.region ++ ".amazonaws.com/" ++ s3_key

/-- The SDK call `s3_client.upload_file(file, bucket, key, ExtraArgs=...)`. -/
structure UploadCall where
  file : String
  bucket : String
  key : String
  extraArgs : List (String × String)

/-- `S3StorageManager.upload_file`: defaults `extra_args` to the empty dict,
fills in `ContentType` from the file extension when known and not already
given, performs the SDK upload and returns the generated URL. -/
def upload_file (cfg : S3Config) (file_path : String) (s3_key : String)
    (extra_args : Option (List (String × String))) : UploadCall × String :=
  let ea0 := extra_args.getD []
  let ea :=
    if (List.lookup "ContentType" ea0).isNone then
      match get_content_type file_path with
      | some ct => setKeyList ea0 "ContentType" ct
      | none => ea0
    else ea0
  (⟨file_path, cfg.bucket, s3_key, ea⟩, generate_url cfg s3_key)

/-!  ## `src/rp_handler.py`  -/

/-- `node['inputs'][k] = v`. -/
def Json.setIn (node : Json) (outer inner : String) (v : Json) : Json :=
  node.setKey outer ((node.getD outer .null).setKey inner v)

/-- The per-node body of the parameter-substitution loop of `handler`
(step 5): dispatch on `node.get('class_type')` and rewrite the listed
input fields; any other node is untouched, and a `LoadImage` node is only
touched when a reference image path is present. -/
def updateNode (prompt : String) (nf w h cfg st sd : Json) (audioPath : String)
    (refPath : Option String) (node : Json) : Json :=
  let ct := node.getD "class_type" .null
  if ct.eqStr "CLIPTextEncode" then
    node.setIn "inputs" "text" (.str prompt)
  else if ct.eqStr "LTX2VideoGeneration" then
    node.setKey "inputs" ((node.getD "inputs" .null).setKeys
      [("num_frames", nf), ("width", w), ("height", h),
       ("cfg_scale", cfg), ("steps", st), ("seed", sd)])
  else if ct.eqStr "LoadAudio" then
    node.setIn "inputs" "audio" (.str audioPath)
  else if ct.eqStr "LoadImage" then
    match refPath with
    | some p => node.setIn "inputs" "image" (.str p)
    | none => node
  else node

/-- The whole parameter-substitution pass: the loop over `workflow.items()`. -/
def updateWorkflow (prompt : String) (nf w h cfg st sd : Json) (audioPath : String)
    (refPath : Option String) (wf : List (String × Json)) : List (String × Json) :=
  wf.map (fun p => (p.1, updateNode prompt nf w h cfg st sd audioPath refPath p.2))

/-- The observer for a node's input fields: `node['inputs'][k]`. -/
def inputsGet (node : Json) (k : String) : Option Json :=
  (node.getD "inputs" .null).get? k

/-- The observable effects `handler` performs, in order. -/
inductive Action where
  | downloadAudio (url path : String)
  | probeAudio (path : String)
  | downloadImage (url path : String)
  | loadWorkflow
  | queuePrompt (workflow : List (String × Json))
  | waitForCompletion (promptId : String)
  | uploadFile (path key : String)

/-- The environment `handler` runs against: the outcome of each effectful
stage.  `queue`, `wait` and `upload` are functions of the arguments the
handler passes them. -/
structure Env where
  downloadAudio : Except PyExn Unit
  audioDuration : Rat
  downloadImage : Except PyExn Unit
  loadWorkflow : Except PyExn (List (String × Json))
  queue : List (String × Json) → Except PyExn String
  wait : String → Except PyExn (Bool × Json)
  videoExists : String → Bool
  upload : String → String → Except PyExn String
  fileSize : Int
  processingTime : Rat
  timestamp : String

/-- A RunPod job: its id and its `input` dictionary. -/
structure Job where
  id : String
  input : List (String × Json)

/-- The string content of a JSON string (the contexts using it are guarded
by validation, which guarantees a string). -/
def strOf : Json → String
  | .str s => s
  | _ => ""

/-- Python `str(v)` for the values that can reach the resolution f-string
(validated numbers; float formatting is approximated by the rational's
representation, exact on integers). -/
def pyNumStr : Json → String
  | .int i => toString i
  | .float q => toString q
  | .bool b => if b then "True" else "False"
  | .str s => s
  | _ => ""

/-- An error response without exception info (validation failure, workflow
failure, missing video): exactly the keys `status` and `error`. -/
def mkError (e : Json) : Json :=
  Json.obj [("status", .str "error"), ("error", e)]

/-- The `except Exception` response: `status`, `error = str(e)`,
`error_type = type(e).__name__`. -/
def mkExnResp (e : PyExn) : Json :=
  Json.obj [("status", .str "error"), ("error", .str e.msg), ("error_type", .str e.ty)]

/-- The success response of `handler` (step 11). -/
def mkSuccess (url : String) (duration : Rat) (fps frames : Json)
    (resolution : String) (fileSize : Int) (processingTime : Rat)
    (jobId pid timestamp : String) : Json :=
  Json.obj
    [("status", .str "success"),
     ("output", Json.obj
       [("video_url", .str url), ("duration", .float duration), ("fps", fps),
        ("frames", frames), ("resolution", .str resolution),
        ("file_size", .int fileSize)]),
     ("metadata", Json.obj
       [("processing_time", .float processingTime), ("job_id", .str jobId),
        ("prompt_id", .str pid), ("timestamp", .str timestamp)])]

/-- The `try` block of `handler` (steps 1 to 11): `.error e` is an escaping
Python exception, `.ok resp` a returned dictionary.  The trace lists the
effects performed, in order. -/
def handlerCore (env : Env) (job : Job) : Except PyExn Json × List Action :=
  match validate_input job.input with
  | some e => (.ok (mkError (.str e)), [])
  | none =>
    let prompt := strOf ((List.lookup "prompt" job.input).getD .null)
    let audio_url := strOf ((List.lookup "audio_url" job.input).getD .null)
    let refUrl := (List.lookup "reference_image_url" job.input).getD .null
    let fps := (List.lookup "fps" job.input).getD (.int 24)
    let width := (List.lookup "width" job.input).getD (.int 512)
    let height := (List.lookup "height" job.input).getD (.int 768)
    let cfg := (List.lookup "cfg_scale" job.input).getD (.float 7)
    let steps := (List.lookup "steps" job.input).getD (.int 30)
    let seed := (List.lookup "seed" job.input).getD (.int (-1))
    let audio_path := "/workspace/input/" ++ job.id ++ "_audio.mp3"
    match env.downloadAudio with
    | .error e => (.error e, [.downloadAudio audio_url audio_path])
    | .ok _ =>
      let nfStep : Json × List Action :=
        match List.lookup "num_frames" job.input with
        | some v => (v, [])
        | none => (.int (calculate_num_frames env.audioDuration (toRat fps)),
                   [.probeAudio audio_path])
      let nfJson := nfStep.1
      let refPath? := if pyTruthy refUrl then
          some ("/workspace/input/" ++ job.id ++ "_reference.jpg") else none
      let afterInputs : List Action → Except PyExn Json × List Action := fun tr =>
        match env.loadWorkflow with
        | .error e => (.error e, tr ++ [.loadWorkflow])
        | .ok wf =>
          let tr := tr ++ [Action.loadWorkflow]
          let wf' := updateWorkflow prompt nfJson width height cfg steps seed
                       audio_path refPath? wf
          match env.queue wf' with
          | .error e => (.error e, tr ++ [.queuePrompt wf'])
          | .ok pid =>
            let tr := tr ++ [Action.queuePrompt wf']
            match env.wait pid with
            | .error e => (.error e, tr ++ [.waitForCompletion pid])
            | .ok res =>
              let tr := tr ++ [Action.waitForCompletion pid]
              if res.1 = false then
                (.ok (mkError (res.2.getD "error" (.str "Unknown error during processing"))), tr)
              else
                let video_filename :=
                  ((res.2.getD "outputs" (.obj [])).getD "video" (.obj [])).getD "filename" .null
                if pyTruthy video_filename = false then
                  (.ok (mkError (.str "No video generated")), tr)
                else
                  match video_filename with
                  | .str fname =>
                    let video_path := "/workspace/output/" ++ fname
                    if env.videoExists video_path = false then
                      (.ok (mkError (.str ("Output video not found: " ++ fname))), tr)
                    else
                      let s3_key := "videos/" ++ job.id ++ "/" ++ fname
                      match env.upload video_path s3_key with
                      | .error e => (.error e, tr ++ [.uploadFile video_path s3_key])
                      | .ok url =>
                        (.ok (mkSuccess url env.audioDuration fps nfJson
                                (pyNumStr width ++ "x" ++ pyNumStr height)
                                env.fileSize env.processingTime job.id pid env.timestamp),
                         tr ++ [.uploadFile video_path s3_key])
                  | _ => (.error ⟨"TypeError", "expected str for path segment"⟩, tr)
      match refPath? with
      | some p =>
        match env.downloadImage with
        | .error e =>
            (.error e, .downloadAudio audio_url audio_path :: nfStep.2
                         ++ [.downloadImage (strOf refUrl) p])
        | .ok _ =>
            afterInputs (.downloadAudio audio_url audio_path :: nfStep.2
                           ++ [.downloadImage (strOf refUrl) p])
      | none =>
          afterInputs (.downloadAudio audio_url audio_path :: nfStep.2)

/-- `handler`: the `try` block wrapped by `except Exception`, which turns any
escaping exception into an error dictionary.  Always returns a dictionary. -/
def handler (env : Env) (job : Job) : Json × List Action :=
  match handlerCore env job with
  | (.ok resp, tr) => (resp, tr)
  | (.error e, tr) => (mkExnResp e, tr)

/-!  Observers naming the values `handler` extracts from the job, used to
state theorems about it; each is definitionally the expression appearing in
`handlerCore`.  -/

/-- The prompt `handler` extracts (a string, once validation passed). -/
def promptOf (job : Job) : String :=
  strOf ((List.lookup "prompt" job.input).getD .null)

/-- The audio URL `handler` extracts. -/
def audioUrlOf (job : Job) : String :=
  strOf ((List.lookup "audio_url" job.input).getD .null)

/-- The raw `reference_image_url` value. -/
def refUrlOf (job : Job) : Json :=
  (List.lookup "reference_image_url" job.input).getD .null

/-- The staged audio path `INPUT_DIR / job_id + "_audio.mp3"`. -/
def audioPathOf (job : Job) : String :=
  "/workspace/input/" ++ job.id ++ "_audio.mp3"

/-- The staged reference-image path. -/
def refPathOf (job : Job) : String :=
  "/workspace/input/" ++ job.id ++ "_reference.jpg"

/-- The `fps` parameter with its default. -/
def fpsOf (job : Job) : Json := (List.lookup "fps" job.input).getD (.int 24)

/-- The `width` parameter with its default. -/
def widthOf (job : Job) : Json := (List.lookup "width" job.input).getD (.int 512)

/-- The `height` parameter with its default. -/
def heightOf (job : Job) : Json := (List.lookup "height" job.input).getD (.int 768)

/-- The `cfg_scale` parameter with its default. -/
def cfgOf (job : Job) : Json := (List.lookup "cfg_scale" job.input).getD (.float 7)

/-- The `steps` parameter with its default. -/
def stepsOf (job : Job) : Json := (List.lookup "steps" job.input).getD (.int 30)

/-- The `seed` parameter with its default. -/
def seedOf (job : Job) : Json := (List.lookup "seed" job.input).getD (.int (-1))

/-- The frame count `handler` uses: the caller's value, or the auto-calculated
one from the probed audio duration. -/
def nfOf (env : Env) (job : Job) : Json :=
  match List.lookup "num_frames" job.input with
  | some v => v
  | none => .int (calculate_num_frames env.audioDuration (toRat (fpsOf job)))

/-- The staged reference-image path when a truthy reference URL was given. -/
def refOptOf (job : Job) : Option String :=
  if pyTruthy (refUrlOf job) then some (refPathOf job) else none

/-- The workflow graph after the parameter-substitution pass, as queued. -/
def rewrittenWf (env : Env) (job : Job) (wf : List (String × Json)) :
    List (String × Json) :=
  updateWorkflow (promptOf job) (nfOf env job) (widthOf job) (heightOf job)
    (cfgOf job) (stepsOf job) (seedOf job) (audioPathOf job) (refOptOf job) wf

/-!  ## Helper lemmas  -/

/-- Unfolding `List.lookup` over a cons cell, with propositional equality in
place of `BEq`. -/
theorem lookup_cons_pair {β : Type} (a : String) (b : β) (l : List (String × β))
    (k : String) :
    List.lookup k ((a, b) :: l) = if k = a then some b else List.lookup k l := by
  rcases eq_or_ne k a with h | h
  · simp [List.lookup, h]
  · simp [List.lookup, h, beq_eq_false_iff_ne.mpr h]

/-- Lookup after dict assignment: the assigned key reads the new value, every
other key is unchanged. -/
theorem lookup_setKeyList {β : Type} (l : List (String × β)) (k k' : String) (v : β) :
    List.lookup k' (setKeyList l k v) =
      if k' = k then some v else List.lookup k' l := by
  induction l with
  | nil =>
      rcases eq_or_ne k' k with h | h <;>
        simp [setKeyList, lookup_cons_pair, h]
  | cons hd tl ih =>
      obtain ⟨a, b⟩ := hd
      simp only [setKeyList]
      rcases eq_or_ne a k with hak | hak
      · subst hak
        rcases eq_or_ne k' a with h | h <;>
          simp [lookup_cons_pair, h]
      · rcases eq_or_ne k' a with h | h
        · subst h
          simp [lookup_cons_pair, hak]
        · simp [lookup_cons_pair, h, hak, ih]

/-- Reading an object after assignment. -/
theorem get?_setKey_obj (fields : List (String × Json)) (k k' : String) (v : Json) :
    ((Json.obj fields).setKey k v).get? k' =
      if k' = k then some v else (Json.obj fields).get? k' := by
  simp [Json.setKey, Json.get?, lookup_setKeyList]

/-- Assignment to one key does not change any other key, on any value shape. -/
theorem get?_setKey_ne (j : Json) (k k' : String) (v : Json) (h : k' ≠ k) :
    (j.setKey k v).get? k' = j.get? k' := by
  cases j <;> simp [Json.setKey, Json.get?, lookup_setKeyList, h]

/-- A JSON value equal (in Python's sense) to one string literal is not equal
to a different one. -/
theorem eqStr_excl (j : Json) (a b : String) (hba : b ≠ a) (h : j.eqStr a = true) :
    j.eqStr b = false := by
  cases j <;> simp [Json.eqStr] at h ⊢
  intro hb
  exact hba (hb.symm.trans h)

/-- A sequence of assignments touching only other keys leaves a key unchanged. -/
theorem get?_setKeys_not_mem (j : Json) (kvs : List (String × Json)) (k : String)
    (h : ∀ p ∈ kvs, k ≠ p.1) :
    (j.setKeys kvs).get? k = j.get? k := by
  induction kvs generalizing j with
  | nil => rfl
  | cons hd tl ih =>
      rw [Json.setKeys, ih _ (fun p hp => h p (List.mem_cons_of_mem hd hp)),
        get?_setKey_ne _ _ _ _ (h hd (List.mem_cons_self _ _))]

/-- Every dictionary the `try` block of `handler` returns carries a `status`
of `error` (with an `error` entry) or of `success`. -/
theorem handlerCore_ok_status (env : Env) (job : Job) :
    ∀ resp tr, handlerCore env job = (.ok resp, tr) →
      (resp.get? "status" = some (.str "error") ∧ ∃ v, resp.get? "error" = some v) ∨
      resp.get? "status" = some (.str "success") := by
  intro resp tr h
  unfold handlerCore at h
  dsimp only at h
  repeat' split at h
  all_goals simp only [Prod.mk.injEq] at h
  all_goals obtain ⟨h1, -⟩ := h
  all_goals try injection h1
  all_goals subst resp
  all_goals simp [mkError, mkSuccess, Json.get?, lookup_cons_pair]

/-- The numeric-fields loop accepts exactly when every field is acceptable in
the claim's sense. -/
theorem checkNumericFields_none_iff (input : List (String × Json)) :
    ∀ fields, checkNumericFields input fields = none ↔
      fields.all (fieldOkSpec input) = true := by
  intro fields
  induction fields with
  | nil => simp [checkNumericFields]
  | cons hd tl ih =>
      obtain ⟨f, lo, hi, msg⟩ := hd
      simp only [checkNumericFields, List.all_cons, fieldOkSpec]
      cases hv : List.lookup f input with
      | none => simp [ih]
      | some v =>
          dsimp only
          by_cases hn : isNumber v
          · by_cases hb : lo ≤ toRat v ∧ toRat v ≤ hi
            · simp [hn, hb, ih, hb.1, hb.2]
            · rw [if_neg (by simp [hn]), if_neg hb]
              simp only [Bool.and_eq_true, decide_eq_true_eq]
              constructor
              · intro hc; cases hc
              · rintro ⟨⟨⟨-, hlo⟩, hhi⟩, -⟩
                exact absurd ⟨hlo, hhi⟩ hb
          · simp [hn]

/-- A message produced by the numeric-fields loop is either the
`must be a number` message of some listed field or its range message. -/
theorem checkNumericFields_some_msg (input : List (String × Json)) (msg : String) :
    ∀ fields, checkNumericFields input fields = some msg →
      ∃ f lo hi m, (f, lo, hi, m) ∈ fields ∧
        (msg = "'" ++ f ++ "' must be a number" ∨ msg = m) := by
  intro fields
  induction fields with
  | nil => intro h; cases h
  | cons hd tl ih =>
      obtain ⟨f, lo, hi, m⟩ := hd
      intro h
      simp only [checkNumericFields] at h
      rcases hv : List.lookup f input with - | v
      · rw [hv] at h
        dsimp only at h
        obtain ⟨f', lo', hi', m', hmem, hor⟩ := ih h
        exact ⟨f', lo', hi', m', List.mem_cons_of_mem _ hmem, hor⟩
      · rw [hv] at h
        dsimp only at h
        by_cases hn : isNumber v
        · rw [if_neg (by simp [hn])] at h
          by_cases hb : lo ≤ toRat v ∧ toRat v ≤ hi
          · rw [if_pos hb] at h
            obtain ⟨f', lo', hi', m', hmem, hor⟩ := ih h
            exact ⟨f', lo', hi', m', List.mem_cons_of_mem _ hmem, hor⟩
          · rw [if_neg hb] at h
            exact ⟨f, lo, hi, m, List.mem_cons_self _ _,
              Or.inr (Option.some.inj h).symm⟩
        · rw [if_pos (by simp [hn])] at h
          exact ⟨f, lo, hi, m, List.mem_cons_self _ _,
            Or.inl (Option.some.inj h).symm⟩

/-!  ## Claim theorems  -/

/-- Claim C8: `validate_input` returns `None` exactly on the inputs the claim
describes (`specValid`, written from the claim's wording); every rejection
message is one of the fixed messages, each naming the offending field; and on
a rejected input `handler` returns that message as the error having performed
no effect at all (no download, no contact with the rendering server). -/
theorem validate_input_spec :
    (∀ input, (validate_input input = none ↔ specValid input = true)) ∧
    (∀ input msg, validate_input input = some msg → msg ∈ validationMessages) ∧
    (∀ env job msg, validate_input job.input = some msg →
      handler env job = (Json.obj [("status", Json.str "error"),
        ("error", Json.str msg)], [])) := by
  refine ⟨?_, ?_, ?_⟩
  · intro input
    unfold validate_input specValid
    rcases hp : List.lookup "prompt" input with - | p
    · simp
    · rcases ha : List.lookup "audio_url" input with - | a
      · simp
      · dsimp only
        by_cases hpo : promptOk p
        · rw [if_neg (by simp [hpo])]
          by_cases hao : urlOk a
          · rw [if_neg (by simp [hao])]
            rcases hnum : checkNumericFields input numericFields with - | msg
            · have hall := (checkNumericFields_none_iff input numericFields).mp hnum
              dsimp only
              rcases hr : List.lookup "reference_image_url" input with - | ref
              · simp [hpo, hao, hall]
              · dsimp only
                by_cases ht : pyTruthy ref
                · by_cases hs : isStr ref
                  · rw [if_neg (by simp [hs])]
                    by_cases hu : urlOk ref
                    · rw [if_neg (by simp [hu])]
                      simp [hpo, hao, hall, ht, hu]
                    · rw [if_pos ⟨ht, by simp [hu]⟩]
                      simp [hpo, hao, hall, ht, hu]
                  · rw [if_pos ⟨ht, by simp [hs]⟩]
                    have hu : urlOk ref = false := by
                      cases ref <;> simp_all [urlOk, isStr]
                    simp [hpo, hao, hall, ht, hu]
                · rw [if_neg (fun hc => ht hc.1), if_neg (fun hc => ht hc.1)]
                  simp [hpo, hao, hall, ht]
            · have hall : numericFields.all (fieldOkSpec input) = false := by
                have hiff := checkNumericFields_none_iff input numericFields
                rw [hnum] at hiff
                cases hfb : numericFields.all (fieldOkSpec input)
                · rfl
                · exact absurd (hiff.mpr hfb) (by simp)
              dsimp only
              simp [hpo, hao, hall]
          · rw [if_pos (by simp [hao])]
            simp [hao]
        · rw [if_pos (by simp [hpo])]
          simp [hpo]
  · intro input msg h
    unfold validate_input at h
    repeat' split at h
    all_goals first
      | exact Option.noConfusion h
      | (injection h with h; subst h;
         first
         | decide
         | (obtain ⟨f, lo, hi, m, hmem, hor⟩ :=
              checkNumericFields_some_msg input _ numericFields (by assumption)
            simp only [numericFields, List.mem_cons, List.not_mem_nil, or_false,
              Prod.mk.injEq] at hmem
            rcases hmem with ⟨rfl, -, -, rfl⟩ | ⟨rfl, -, -, rfl⟩ | ⟨rfl, -, -, rfl⟩ |
              ⟨rfl, -, -, rfl⟩ | ⟨rfl, -, -, rfl⟩ | ⟨rfl, -, -, rfl⟩ | ⟨rfl, -, -, rfl⟩ <;>
              (rcases hor with rfl | rfl <;> decide)))
  · intro env job msg hmsg
    unfold handler handlerCore
    rw [hmsg]
    rfl

/-- Witness for C8 at concrete inputs: the iff instantiated at a minimal valid
input, and `handler` on an input with an invalid audio URL returning exactly
that message with an empty effect trace. -/
theorem validate_input_spec_witness :
    (validate_input [("prompt", Json.str "Test"),
        ("audio_url", Json.str "https://example.com/audio.mp3")] = none ↔
      specValid [("prompt", Json.str "Test"),
        ("audio_url", Json.str "https://example.com/audio.mp3")] = true) ∧
    handler
        ⟨.ok (), 5, .ok (), .ok [], fun _ => .ok "p", fun _ => .ok (true, .obj []),
         fun _ => true, fun _ _ => .ok "u", 0, 0, "ts"⟩
        ⟨"job-1", [("prompt", Json.str "Test"), ("audio_url", Json.str "not-a-valid-url")]⟩
      = (Json.obj [("status", Json.str "error"),
          ("error", Json.str "'audio_url' must be a valid HTTP(S) URL")], []) :=
  ⟨validate_input_spec.1 _,
   validate_input_spec.2.2 _ _ "'audio_url' must be a valid HTTP(S) URL" (by decide)⟩

/-- Counterexample to C5 as stated: when the polling stage reports failure
with a history whose `error` entry is a dictionary, `handler` returns
`status = error` but binds `error` to that dictionary, which is not a
string. -/
theorem handler_error_string_counterexample :
    (handler
        ⟨.ok (), 5, .ok (), .ok [], fun _ => .ok "pid",
         fun _ => .ok (false, Json.obj [("error", Json.obj [("node", Json.int 3)])]),
         fun _ => true, fun _ _ => .ok "u", 0, 0, "ts"⟩
        ⟨"j1", [("prompt", Json.str "p"),
          ("audio_url", Json.str "https://e.com/a.mp3"),
          ("num_frames", Json.int 120)]⟩).1
      = Json.obj [("status", Json.str "error"),
          ("error", Json.obj [("node", Json.int 3)])] ∧
    ∀ s, Json.obj [("node", Json.int 3)] ≠ Json.str s :=
  ⟨rfl, fun s h => by cases h⟩

/-- Claim C5 (amended): `handler` never raises — it is total, every result is
a dictionary whose `status` is `error` or `success` — and when any stage
raises an exception the result is the error dictionary with `error` bound to
the string `str(e)`; every error result binds the key `error` to a value
describing the failure (a string in every case except a non-string history
`error` entry relayed from the rendering server). -/
theorem handler_error_containment (env : Env) (job : Job) :
    (∀ e tr, handlerCore env job = (.error e, tr) →
      handler env job = (Json.obj [("status", Json.str "error"),
        ("error", Json.str e.msg), ("error_type", Json.str e.ty)], tr)) ∧
    ((handler env job).1.get? "status" = some (.str "error") ∨
     (handler env job).1.get? "status" = some (.str "success")) ∧
    ((handler env job).1.get? "status" = some (.str "error") →
      ∃ v, (handler env job).1.get? "error" = some v) := by
  rcases hc : handlerCore env job with ⟨r, tr⟩
  have hh : handler env job =
      (match (r, tr) with
       | (.ok resp, tr) => (resp, tr)
       | (.error e, tr) => (mkExnResp e, tr)) := by
    unfold handler
    rw [hc]
  cases r with
  | error e =>
      refine ⟨?_, ?_, ?_⟩
      · intro e' tr' h'
        simp only [Prod.mk.injEq] at h'
        obtain ⟨h1, rfl⟩ := h'
        injection h1 with h1
        subst h1
        exact hh
      · rw [hh]
        exact Or.inl (by simp [mkExnResp, Json.get?, lookup_cons_pair])
      · rw [hh]
        intro _
        exact ⟨.str e.msg, by simp [mkExnResp, Json.get?, lookup_cons_pair]⟩
  | ok resp =>
      have hstat := handlerCore_ok_status env job resp tr hc
      refine ⟨?_, ?_, ?_⟩
      · intro e' tr' h'
        simp only [Prod.mk.injEq] at h'
        exact absurd h'.1 (by simp)
      · rw [hh]
        dsimp only
        rcases hstat with ⟨hs, -⟩ | hs
        · exact Or.inl hs
        · exact Or.inr hs
      · rw [hh]
        dsimp only
        intro herr
        rcases hstat with ⟨-, v, hv⟩ | hs
        · exact ⟨v, hv⟩
        · exact absurd (hs.symm.trans herr) (by simp)

/-- Witness for C5 at a concrete run: a failing audio download (an exception)
is converted into the error dictionary carrying `str(e)` and the exception
class name. -/
theorem handler_error_containment_witness :
    handler
        ⟨.error ⟨"ConnectionError", "boom"⟩, 5, .ok (), .ok [], fun _ => .ok "pid",
         fun _ => .ok (true, .obj []), fun _ => true, fun _ _ => .ok "u", 0, 0, "ts"⟩
        ⟨"j1", [("prompt", Json.str "p"),
          ("audio_url", Json.str "https://e.com/a.mp3"),
          ("num_frames", Json.int 120)]⟩
      = (Json.obj [("status", Json.str "error"), ("error", Json.str "boom"),
          ("error_type", Json.str "ConnectionError")],
         [Action.downloadAudio "https://e.com/a.mp3" "/workspace/input/j1_audio.mp3"]) :=
  (handler_error_containment _ _).1 ⟨"ConnectionError", "boom"⟩
    [Action.downloadAudio "https://e.com/a.mp3" "/workspace/input/j1_audio.mp3"] rfl

/-- Claim C6: on a job that validates, with every stage succeeding and the
workflow completing with an existing output video, `handler` performs the
pipeline in order — download audio, (optionally probe it and download the
reference image), load the fixed workflow, rewrite it, queue the rewritten
graph, wait for completion, upload the video — and returns the success
response whose output carries the storage URL returned by the upload, the
fps, the frame count, the `WxH` resolution string, and the file size, and
whose metadata carries the job id and the prompt id returned by queueing. -/
theorem handler_success_pipeline (env : Env) (job : Job)
    (wf : List (String × Json)) (pid url fname : String) (history : Json)
    (hval : validate_input job.input = none)
    (hda : env.downloadAudio = .ok ())
    (hdi : env.downloadImage = .ok ())
    (hwf : env.loadWorkflow = .ok wf)
    (hq : ∀ w, env.queue w = .ok pid)
    (hwait : ∀ p, env.wait p = .ok (true, history))
    (hfn : ((history.getD "outputs" (.obj [])).getD "video" (.obj [])).getD
        "filename" .null = .str fname)
    (hft : pyTruthy (.str fname) = true)
    (hex : ∀ p, env.videoExists p = true)
    (hup : ∀ p k, env.upload p k = .ok url) :
    handler env job =
      (mkSuccess url env.audioDuration (fpsOf job) (nfOf env job)
         (pyNumStr (widthOf job) ++ "x" ++ pyNumStr (heightOf job))
         env.fileSize env.processingTime job.id pid env.timestamp,
       [Action.downloadAudio (audioUrlOf job) (audioPathOf job)]
         ++ (match List.lookup "num_frames" job.input with
             | some _ => []
             | none => [Action.probeAudio (audioPathOf job)])
         ++ (match refOptOf job with
             | some p => [Action.downloadImage (strOf (refUrlOf job)) p]
             | none => [])
         ++ [Action.loadWorkflow, Action.queuePrompt (rewrittenWf env job wf),
             Action.waitForCompletion pid,
             Action.uploadFile ("/workspace/output/" ++ fname)
               ("videos/" ++ job.id ++ "/" ++ fname)]) ∧
    (handler env job).1.get? "status" = some (.str "success") ∧
    ((handler env job).1.getD "output" .null).get? "video_url" = some (.str url) ∧
    ((handler env job).1.getD "output" .null).get? "fps" = some (fpsOf job) ∧
    ((handler env job).1.getD "output" .null).get? "frames" = some (nfOf env job) ∧
    ((handler env job).1.getD "output" .null).get? "resolution"
        = some (.str (pyNumStr (widthOf job) ++ "x" ++ pyNumStr (heightOf job))) ∧
    ((handler env job).1.getD "output" .null).get? "file_size"
        = some (.int env.fileSize) ∧
    ((handler env job).1.getD "metadata" .null).get? "job_id" = some (.str job.id) ∧
    ((handler env job).1.getD "metadata" .null).get? "prompt_id" = some (.str pid) := by
  have hmain : handler env job =
      (mkSuccess url env.audioDuration (fpsOf job) (nfOf env job)
         (pyNumStr (widthOf job) ++ "x" ++ pyNumStr (heightOf job))
         env.fileSize env.processingTime job.id pid env.timestamp,
       [Action.downloadAudio (audioUrlOf job) (audioPathOf job)]
         ++ (match List.lookup "num_frames" job.input with
             | some _ => []
             | none => [Action.probeAudio (audioPathOf job)])
         ++ (match refOptOf job with
             | some p => [Action.downloadImage (strOf (refUrlOf job)) p]
             | none => [])
         ++ [Action.loadWorkflow, Action.queuePrompt (rewrittenWf env job wf),
             Action.waitForCompletion pid,
             Action.uploadFile ("/workspace/output/" ++ fname)
               ("videos/" ++ job.id ++ "/" ++ fname)]) := by
    unfold handler handlerCore
    rcases hnf : List.lookup "num_frames" job.input with - | v <;>
    by_cases href : pyTruthy ((List.lookup "reference_image_url" job.input).getD Json.null) <;>
      simp [hval, hda, hdi, hwf, hq, hwait, hfn, hex, hup, hnf, href, hft,
        promptOf, audioUrlOf, refUrlOf, audioPathOf, refPathOf, fpsOf, widthOf,
        heightOf, cfgOf, stepsOf, seedOf, nfOf, refOptOf, rewrittenWf]
  refine ⟨hmain, ?_, ?_, ?_, ?_, ?_, ?_, ?_, ?_⟩ <;>
    rw [hmain] <;>
    simp [mkSuccess, Json.getD, Json.get?, lookup_cons_pair]

/-- Witness for C6 at a concrete job and environment where every stage
succeeds. -/
theorem handler_success_pipeline_witness :
    ((handler
        ⟨.ok (), 5, .ok (),
         .ok [("1", Json.obj [("class_type", Json.str "CLIPTextEncode"),
                ("inputs", Json.obj [("text", Json.str "old")])])],
         fun _ => .ok "pid-1",
         fun _ => .ok (true, Json.obj [("outputs", Json.obj
            [("video", Json.obj [("filename", Json.str "out.mp4")])])]),
         fun _ => true, fun _ _ => .ok "https://bkt.s3.r.amazonaws.com/u.mp4",
         99, 2, "2026-01-01T00:00:00Z"⟩
        ⟨"jobS", [("prompt", Json.str "hello"),
          ("audio_url", Json.str "https://e.com/a.mp3"),
          ("num_frames", Json.int 120)]⟩).1.get? "status"
      = some (Json.str "success")) ∧
    (((handler
        ⟨.ok (), 5, .ok (),
         .ok [("1", Json.obj [("class_type", Json.str "CLIPTextEncode"),
                ("inputs", Json.obj [("text", Json.str "old")])])],
         fun _ => .ok "pid-1",
         fun _ => .ok (true, Json.obj [("outputs", Json.obj
            [("video", Json.obj [("filename", Json.str "out.mp4")])])]),
         fun _ => true, fun _ _ => .ok "https://bkt.s3.r.amazonaws.com/u.mp4",
         99, 2, "2026-01-01T00:00:00Z"⟩
        ⟨"jobS", [("prompt", Json.str "hello"),
          ("audio_url", Json.str "https://e.com/a.mp3"),
          ("num_frames", Json.int 120)]⟩).1.getD "output" .null).get? "video_url"
      = some (Json.str "https://bkt.s3.r.amazonaws.com/u.mp4")) := by
  obtain ⟨-, h2, h3, -⟩ :=
    handler_success_pipeline
      ⟨.ok (), 5, .ok (),
       .ok [("1", Json.obj [("class_type", Json.str "CLIPTextEncode"),
              ("inputs", Json.obj [("text", Json.str "old")])])],
       fun _ => .ok "pid-1",
       fun _ => .ok (true, Json.obj [("outputs", Json.obj
          [("video", Json.obj [("filename", Json.str "out.mp4")])])]),
       fun _ => true, fun _ _ => .ok "https://bkt.s3.r.amazonaws.com/u.mp4",
       99, 2, "2026-01-01T00:00:00Z"⟩
      ⟨"jobS", [("prompt", Json.str "hello"),
        ("audio_url", Json.str "https://e.com/a.mp3"),
        ("num_frames", Json.int 120)]⟩
      [("1", Json.obj [("class_type", Json.str "CLIPTextEncode"),
         ("inputs", Json.obj [("text", Json.str "old")])])]
      "pid-1" "https://bkt.s3.r.amazonaws.com/u.mp4" "out.mp4"
      (Json.obj [("outputs", Json.obj
         [("video", Json.obj [("filename", Json.str "out.mp4")])])])
      (by decide) rfl rfl rfl (fun w => rfl) (fun p => rfl) rfl (by decide)
      (fun p => rfl) (fun p k => rfl)
  exact ⟨h2, h3⟩

/-- Claim C1: the parameter-substitution pass rewrites a node only according
to its `class_type` role: `CLIPTextEncode` gets its `text` input set to the
prompt, `LTX2VideoGeneration` gets `num_frames`, `width`, `height`,
`cfg_scale`, `steps` and `seed` set, `LoadAudio` gets `audio` set to the
staged audio path, and `LoadImage` gets `image` set to the staged image path
only when a reference image was provided; every node of any other
class type is left unchanged, and on a matched node every input field other
than the listed ones, and every top-level key other than `inputs`, keeps its
value.  The pass itself is the per-node map over the graph. -/
theorem workflow_param_substitution (prompt : String) (nfJ wJ hJ cfgJ stJ sdJ : Json)
    (audio : String) (ref : Option String) :
    (∀ wf : List (String × Json),
      updateWorkflow prompt nfJ wJ hJ cfgJ stJ sdJ audio ref wf
        = wf.map fun p => (p.1, updateNode prompt nfJ wJ hJ cfgJ stJ sdJ audio ref p.2)) ∧
    (∀ node : Json,
      (node.getD "class_type" .null).eqStr "CLIPTextEncode" = false →
      (node.getD "class_type" .null).eqStr "LTX2VideoGeneration" = false →
      (node.getD "class_type" .null).eqStr "LoadAudio" = false →
      ((node.getD "class_type" .null).eqStr "LoadImage" = false ∨ ref = none) →
      updateNode prompt nfJ wJ hJ cfgJ stJ sdJ audio ref node = node) ∧
    (∀ node ifields, (node.getD "class_type" .null).eqStr "CLIPTextEncode" = true →
      node.get? "inputs" = some (.obj ifields) →
      inputsGet (updateNode prompt nfJ wJ hJ cfgJ stJ sdJ audio ref node) "text"
          = some (.str prompt) ∧
      (∀ k, k ≠ "text" →
        inputsGet (updateNode prompt nfJ wJ hJ cfgJ stJ sdJ audio ref node) k
          = inputsGet node k) ∧
      (∀ k, k ≠ "inputs" →
        (updateNode prompt nfJ wJ hJ cfgJ stJ sdJ audio ref node).get? k
          = node.get? k)) ∧
    (∀ node ifields, (node.getD "class_type" .null).eqStr "LTX2VideoGeneration" = true →
      node.get? "inputs" = some (.obj ifields) →
      inputsGet (updateNode prompt nfJ wJ hJ cfgJ stJ sdJ audio ref node) "num_frames"
          = some nfJ ∧
      inputsGet (updateNode prompt nfJ wJ hJ cfgJ stJ sdJ audio ref node) "width"
          = some wJ ∧
      inputsGet (updateNode prompt nfJ wJ hJ cfgJ stJ sdJ audio ref node) "height"
          = some hJ ∧
      inputsGet (updateNode prompt nfJ wJ hJ cfgJ stJ sdJ audio ref node) "cfg_scale"
          = some cfgJ ∧
      inputsGet (updateNode prompt nfJ wJ hJ cfgJ stJ sdJ audio ref node) "steps"
          = some stJ ∧
      inputsGet (updateNode prompt nfJ wJ hJ cfgJ stJ sdJ audio ref node) "seed"
          = some sdJ ∧
      (∀ k, k ≠ "num_frames" → k ≠ "width" → k ≠ "height" → k ≠ "cfg_scale" →
        k ≠ "steps" → k ≠ "seed" →
        inputsGet (updateNode prompt nfJ wJ hJ cfgJ stJ sdJ audio ref node) k
          = inputsGet node k) ∧
      (∀ k, k ≠ "inputs" →
        (updateNode prompt nfJ wJ hJ cfgJ stJ sdJ audio ref node).get? k
          = node.get? k)) ∧
    (∀ node ifields, (node.getD "class_type" .null).eqStr "LoadAudio" = true →
      node.get? "inputs" = some (.obj ifields) →
      inputsGet (updateNode prompt nfJ wJ hJ cfgJ stJ sdJ audio ref node) "audio"
          = some (.str audio) ∧
      (∀ k, k ≠ "audio" →
        inputsGet (updateNode prompt nfJ wJ hJ cfgJ stJ sdJ audio ref node) k
          = inputsGet node k) ∧
      (∀ k, k ≠ "inputs" →
        (updateNode prompt nfJ wJ hJ cfgJ stJ sdJ audio ref node).get? k
          = node.get? k)) ∧
    (∀ node ifields p, (node.getD "class_type" .null).eqStr "LoadImage" = true →
      ref = some p →
      node.get? "inputs" = some (.obj ifields) →
      inputsGet (updateNode prompt nfJ wJ hJ cfgJ stJ sdJ audio ref node) "image"
          = some (.str p) ∧
      (∀ k, k ≠ "image" →
        inputsGet (updateNode prompt nfJ wJ hJ cfgJ stJ sdJ audio ref node) k
          = inputsGet node k) ∧
      (∀ k, k ≠ "inputs" →
        (updateNode prompt nfJ wJ hJ cfgJ stJ sdJ audio ref node).get? k
          = node.get? k)) := by
  refine ⟨fun wf => rfl, ?_, ?_, ?_, ?_, ?_⟩
  · intro node hc hl ha him
    rcases him with him | him
    · simp [updateNode, hc, hl, ha, him]
    · cases hil : (node.getD "class_type" .null).eqStr "LoadImage" <;>
        simp [updateNode, hc, hl, ha, hil, him]
  · intro node ifields hct hin
    obtain ⟨fields, rfl⟩ : ∃ fields, node = Json.obj fields := by
      cases node <;> simp [Json.get?] at hin ⊢
    simp only [Json.getD, Json.get?] at hct hin
    refine ⟨?_, fun k hk => ?_, fun k hk => ?_⟩ <;>
      simp [updateNode, Json.getD, Json.get?, Json.setIn, inputsGet,
        Json.setKey, lookup_setKeyList, *]
  · intro node ifields hct hin
    have hcl := eqStr_excl _ _ "CLIPTextEncode" (by decide) hct
    obtain ⟨fields, rfl⟩ : ∃ fields, node = Json.obj fields := by
      cases node <;> simp [Json.get?] at hin ⊢
    simp only [Json.getD, Json.get?] at hct hcl hin
    refine ⟨?_, ?_, ?_, ?_, ?_, ?_, fun k hk1 hk2 hk3 hk4 hk5 hk6 => ?_,
        fun k hk => ?_⟩ <;>
      simp [updateNode, Json.getD, Json.get?, Json.setKeys,
        Json.setKey, inputsGet, lookup_setKeyList, *]
  · intro node ifields hct hin
    have hcl := eqStr_excl _ _ "CLIPTextEncode" (by decide) hct
    have hlt := eqStr_excl _ _ "LTX2VideoGeneration" (by decide) hct
    obtain ⟨fields, rfl⟩ : ∃ fields, node = Json.obj fields := by
      cases node <;> simp [Json.get?] at hin ⊢
    simp only [Json.getD, Json.get?] at hct hcl hlt hin
    refine ⟨?_, fun k hk => ?_, fun k hk => ?_⟩ <;>
      simp [updateNode, Json.getD, Json.get?, Json.setIn,
        inputsGet, Json.setKey, lookup_setKeyList, *]
  · intro node ifields p hct hrefp hin
    have hcl := eqStr_excl _ _ "CLIPTextEncode" (by decide) hct
    have hlt := eqStr_excl _ _ "LTX2VideoGeneration" (by decide) hct
    have hla := eqStr_excl _ _ "LoadAudio" (by decide) hct
    obtain ⟨fields, rfl⟩ : ∃ fields, node = Json.obj fields := by
      cases node <;> simp [Json.get?] at hin ⊢
    subst hrefp
    simp only [Json.getD, Json.get?] at hct hcl hlt hla hin
    refine ⟨?_, fun k hk => ?_, fun k hk => ?_⟩ <;>
      simp [updateNode, Json.getD, Json.get?, Json.setIn,
        inputsGet, Json.setKey, lookup_setKeyList, *]

/-- Witness for C1 at concrete nodes: a `KSampler` node is untouched; on a
`CLIPTextEncode` node the `text` input becomes the prompt while its `clip`
input keeps its value. -/
theorem workflow_param_substitution_witness :
    (updateNode "new prompt" (.int 120) (.int 512) (.int 768) (.float 7) (.int 30)
        (.int (-1)) "/in/a.mp3" (some "/in/r.jpg")
        (Json.obj [("class_type", .str "KSampler"),
          ("inputs", .obj [("steps", .int 20)])])
      = Json.obj [("class_type", .str "KSampler"),
          ("inputs", .obj [("steps", .int 20)])]) ∧
    (inputsGet (updateNode "new prompt" (.int 120) (.int 512) (.int 768) (.float 7)
        (.int 30) (.int (-1)) "/in/a.mp3" (some "/in/r.jpg")
        (Json.obj [("class_type", .str "CLIPTextEncode"),
          ("inputs", .obj [("text", .str "old"), ("clip", .str "c")])])) "text"
      = some (.str "new prompt")) ∧
    (inputsGet (updateNode "new prompt" (.int 120) (.int 512) (.int 768) (.float 7)
        (.int 30) (.int (-1)) "/in/a.mp3" (some "/in/r.jpg")
        (Json.obj [("class_type", .str "CLIPTextEncode"),
          ("inputs", .obj [("text", .str "old"), ("clip", .str "c")])])) "clip"
      = some (.str "c")) := by
  obtain ⟨-, h2, h3, -, -, -⟩ :=
    workflow_param_substitution "new prompt" (.int 120) (.int 512) (.int 768)
      (.float 7) (.int 30) (.int (-1)) "/in/a.mp3" (some "/in/r.jpg")
  refine ⟨h2 (Json.obj [("class_type", .str "KSampler"),
      ("inputs", .obj [("steps", .int 20)])]) rfl rfl rfl (Or.inl rfl), ?_, ?_⟩
  · exact (h3 (Json.obj [("class_type", .str "CLIPTextEncode"),
      ("inputs", .obj [("text", .str "old"), ("clip", .str "c")])])
      [("text", .str "old"), ("clip", .str "c")] rfl rfl).1
  · exact ((h3 (Json.obj [("class_type", .str "CLIPTextEncode"),
      ("inputs", .obj [("text", .str "old"), ("clip", .str "c")])])
      [("text", .str "old"), ("clip", .str "c")] rfl rfl).2.1 "clip"
      (by decide)).trans rfl

/-- The polls recorded by the loop are the `pollTimes` recurrence, whatever
the history replies, as long as none of them completes. -/
theorem waitFuel_polls (histAt : Nat → Option Json) (t c : Nat)
    (hnever : ∀ k h, histAt k = some h → checkHistory h = none) :
    ∀ fuel k e, (waitFuel histAt t c fuel k e).2 = pollTimes t c fuel e := by
  intro fuel
  induction fuel with
  | zero => intro k e; rfl
  | succ n ih =>
      intro k e
      by_cases hte : t < e
      · simp [waitFuel, pollTimes, hte]
      · cases hh : histAt k with
        | none => simp [waitFuel, pollTimes, hte, hh, ih]
        | some h => simp [waitFuel, pollTimes, hte, hh, hnever k h hh, ih]

/-- With enough fuel, a never-completing run returns the timeout failure. -/
theorem waitFuel_timeout (histAt : Nat → Option Json) (t c : Nat)
    (hnever : ∀ k h, histAt k = some h → checkHistory h = none) :
    ∀ fuel k e, t < e + fuel * c →
      (waitFuel histAt t c (fuel + 1) k e).1 = some (false, errTimeout) := by
  intro fuel
  induction fuel with
  | zero =>
      intro k e h
      simp only [Nat.zero_mul, Nat.add_zero] at h
      simp [waitFuel, h]
  | succ n ih =>
      intro k e h
      by_cases hte : t < e
      · simp [waitFuel, hte]
      · have hrec : t < (e + c) + n * c := by
          rw [Nat.succ_mul] at h; omega
        cases hh : histAt k with
        | none => simp [waitFuel, hte, hh]; exact ih (k + 1) (e + c) hrec
        | some hist =>
            simp [waitFuel, hte, hh, hnever k hist hh]
            exact ih (k + 1) (e + c) hrec

/-- Recorded poll times never exceed the timeout. -/
theorem pollTimes_le (t c : Nat) :
    ∀ fuel e p, p ∈ pollTimes t c fuel e → p ≤ t := by
  intro fuel
  induction fuel with
  | zero => intro e p hp; simp [pollTimes] at hp
  | succ n ih =>
      intro e p hp
      by_cases hte : t < e
      · simp [pollTimes, hte] at hp
      · simp only [pollTimes, if_neg hte, List.mem_cons] at hp
        rcases hp with rfl | hp
        · omega
        · exact ih (e + c) p hp

/-- Past the timeout no poll is recorded. -/
theorem pollTimes_empty (t c : Nat) (fuel e : Nat) (h : t < e) :
    pollTimes t c fuel e = [] := by
  cases fuel <;> simp [pollTimes, h]

/-- Exact count of polls in a window: one per `check_interval` from `e` up to
the timeout. -/
theorem pollTimes_length (t c : Nat) (hc : 0 < c) :
    ∀ fuel e, e ≤ t → t < e + fuel * c →
      (pollTimes t c (fuel + 1) e).length = (t - e) / c + 1 := by
  intro fuel
  induction fuel with
  | zero => intro e he h; simp only [Nat.zero_mul, Nat.add_zero] at h; omega
  | succ n ih =>
      intro e he h
      have hstep : pollTimes t c (n + 1 + 1) e = e :: pollTimes t c (n + 1) (e + c) := by
        show (if t < e then [] else e :: pollTimes t c (n + 1) (e + c)) = _
        rw [if_neg (Nat.not_lt.mpr he)]
      by_cases hec : e + c ≤ t
      · have hrec := ih (e + c) hec (by rw [Nat.succ_mul] at h; omega)
        rw [show t - (e + c) = t - e - c by omega] at hrec
        have hce : c ≤ t - e := by omega
        rw [hstep, List.length_cons, hrec, Nat.div_eq_sub_div hc hce]
      · rw [hstep, pollTimes_empty t c (n + 1) (e + c) (by omega),
          Nat.div_eq_of_lt (by omega)]
        simp

/-- Claim C2: `wait_for_completion` is a bounded polling loop: when the server
never reports a completing history, the loop returns
`(False, dict with error Execution timeout)`, every poll happens at an
elapsed time within the timeout, and the loop performs exactly
`timeout / check_interval + 1` polls before returning at the first elapsed
time past the timeout — in particular it terminates. -/
theorem wait_for_completion_timeout (t c : Nat) (histAt : Nat → Option Json)
    (ht : 0 < t) (hc : 0 < c)
    (hnever : ∀ k h, histAt k = some h → checkHistory h = none) :
    (wait_for_completion histAt t c).1 = some (false, errTimeout) ∧
    (∀ p ∈ (wait_for_completion histAt t c).2, p ≤ t) ∧
    (wait_for_completion histAt t c).2.length = t / c + 1 := by
  have hfuel : t < 0 + (t / c + 1) * c := by
    have hdm := (Nat.div_add_mod t c).symm
    have hm : t % c < c := Nat.mod_lt t hc
    calc t = c * (t / c) + t % c := hdm
    _ < c * (t / c) + c := by omega
    _ = (t / c + 1) * c := by ring
    _ = 0 + (t / c + 1) * c := by omega
  unfold wait_for_completion
  rw [show t / c + 2 = (t / c + 1) + 1 from by omega]
  refine ⟨?_, ?_, ?_⟩
  · exact waitFuel_timeout histAt t c hnever (t / c + 1) 0 0 hfuel
  · intro p hp
    rw [waitFuel_polls histAt t c hnever] at hp
    exact pollTimes_le t c _ _ p hp
  · rw [waitFuel_polls histAt t c hnever,
      pollTimes_length t c hc (t / c + 1) 0 (Nat.zero_le t) hfuel]
    simp

/-- Witness for C2 at a concrete run: timeout 10, interval 3, no history —
timeout result and polls at 0, 3, 6, 9. -/
theorem wait_for_completion_timeout_witness :
    (wait_for_completion (fun _ => none) 10 3).1 = some (false, errTimeout) ∧
    (∀ p ∈ (wait_for_completion (fun _ => none) 10 3).2, p ≤ 10) ∧
    (wait_for_completion (fun _ => none) 10 3).2.length = 10 / 3 + 1 :=
  wait_for_completion_timeout 10 3 (fun _ => none) (by decide) (by decide)
    (fun _ h hh => by cases hh)

/-- Claim C3: the polling state machine.  On a history for the prompt: an
`error` entry returns failure carrying that entry, and does so whatever the
success markers say (error takes precedence); otherwise a `status_str` of
`success` or an `outputs` key returns success with the history; otherwise
the loop does not return — it records the poll and retries
`check_interval` later — as it also does when the history is absent. -/
theorem wait_history_state_machine (h : Json) :
    (∀ e, h.get? "error" = some e →
      checkHistory h = some (false, Json.obj [("error", e)])) ∧
    (h.get? "error" = none → (statusSuccess h = true ∨ h.hasKey "outputs" = true) →
      checkHistory h = some (true, h)) ∧
    (h.get? "error" = none → statusSuccess h = false → h.hasKey "outputs" = false →
      checkHistory h = none) ∧
    (∀ histAt t c fuel k e, e ≤ t → histAt k = some h →
      ∀ r, checkHistory h = some r →
        waitFuel histAt t c (fuel + 1) k e = (some r, [e])) ∧
    (∀ histAt t c fuel k e, e ≤ t → histAt k = some h → checkHistory h = none →
      waitFuel histAt t c (fuel + 1) k e
        = ((waitFuel histAt t c fuel (k + 1) (e + c)).1,
           e :: (waitFuel histAt t c fuel (k + 1) (e + c)).2)) ∧
    (∀ histAt t c fuel k e, e ≤ t → histAt k = none →
      waitFuel histAt t c (fuel + 1) k e
        = ((waitFuel histAt t c fuel (k + 1) (e + c)).1,
           e :: (waitFuel histAt t c fuel (k + 1) (e + c)).2)) := by
  refine ⟨?_, ?_, ?_, ?_, ?_, ?_⟩
  · intro e he
    simp [checkHistory, he, Json.getD]
  · intro he hsucc
    rcases hsucc with hs | ho
    · simp [checkHistory, he, hs]
    · simp only [Json.hasKey] at ho
      simp [checkHistory, Json.hasKey, he, ho]
  · intro he hs ho
    simp only [Json.hasKey] at ho
    simp [checkHistory, Json.hasKey, he, hs, ho]
  · intro histAt t c fuel k e hte hh r hr
    simp [waitFuel, Nat.not_lt.mpr hte, hh, hr]
  · intro histAt t c fuel k e hte hh hr
    simp [waitFuel, Nat.not_lt.mpr hte, hh, hr]
  · intro histAt t c fuel k e hte hh
    simp [waitFuel, Nat.not_lt.mpr hte, hh]

/-- Witness for C3 at concrete histories: an error entry wins even when
`outputs` is present; a history with `outputs` alone succeeds; and a poll
seeing a pending history loops to elapsed time `c`. -/
theorem wait_history_state_machine_witness :
    checkHistory (Json.obj [("error", .str "boom"), ("outputs", .obj [])])
      = some (false, Json.obj [("error", .str "boom")]) ∧
    checkHistory (Json.obj [("outputs", .obj [("video", .obj [])])])
      = some (true, Json.obj [("outputs", .obj [("video", .obj [])])]) ∧
    checkHistory (Json.obj [("status", .obj [("status_str", .str "running")])])
      = none ∧
    waitFuel (fun _ => some (Json.obj [("status", .obj [("status_str", .str "running")])]))
        10 3 1 0 0
      = ((waitFuel (fun _ => some (Json.obj [("status", .obj [("status_str", .str "running")])]))
            10 3 0 1 3).1,
         0 :: (waitFuel (fun _ => some (Json.obj [("status", .obj [("status_str", .str "running")])]))
            10 3 0 1 3).2) := by
  refine ⟨?_, ?_, ?_, ?_⟩
  · exact (wait_history_state_machine _).1 (.str "boom") rfl
  · exact (wait_history_state_machine _).2.1 rfl (Or.inr rfl)
  · exact (wait_history_state_machine _).2.2.1 rfl rfl rfl
  · exact (wait_history_state_machine _).2.2.2.2.1 _ 10 3 0 0 0 (by omega) rfl rfl

/-- Claim C9: `calculate_num_frames` returns `int(duration * fps)` clamped to
the closed interval from 24 to 1000: the result is at least 24 and at most
1000, and equals `int(duration * fps)` whenever that value already lies in
the interval; and a caller-supplied `num_frames` of 1 passes
`validate_input`. -/
theorem calculate_num_frames_clamped (duration fps : Rat) :
    24 ≤ calculate_num_frames duration fps ∧
    calculate_num_frames duration fps ≤ 1000 ∧
    (24 ≤ pyIntTrunc (duration * fps) → pyIntTrunc (duration * fps) ≤ 1000 →
      calculate_num_frames duration fps = pyIntTrunc (duration * fps)) ∧
    validate_input
      [("prompt", Json.str "x"), ("audio_url", Json.str "https://e.com/a.mp3"),
       ("num_frames", Json.int 1)] = none := by
  refine ⟨le_max_left _ _, max_le (by norm_num) (min_le_right _ _), ?_, by decide⟩
  intro h24 h1000
  unfold calculate_num_frames
  rw [min_eq_left h1000, max_eq_right h24]

/-- Witness for C9 at a concrete input: 5 seconds at 24 fps gives 120 frames. -/
theorem calculate_num_frames_clamped_witness :
    calculate_num_frames 5 24 = pyIntTrunc (5 * 24) := by
  have h : pyIntTrunc (5 * 24) = 120 := by
    rw [show (5 * 24 : Rat) = 120 by norm_num]
    rfl
  exact (calculate_num_frames_clamped 5 24).2.2.1 (by rw [h]; norm_num)
    (by rw [h]; norm_num)

/-- Claim C10: `get_duration_from_audio` returns the default 5.0 both when the
`ffprobe` subprocess fails (the caught `CalledProcessError`) and when its
stripped stdout does not parse as a float (the caught `ValueError`), and
returns the parsed duration when probing succeeds; it is total, so it never
propagates either failure. -/
theorem get_duration_from_audio_total (probe : ProbeOutcome)
    (parseFloat : String → Option Rat) :
    (probe = .calledProcessError →
      get_duration_from_audio probe parseFloat = 5) ∧
    (∀ out, probe = .ok out → parseFloat (pyStrip out) = none →
      get_duration_from_audio probe parseFloat = 5) ∧
    (∀ out d, probe = .ok out → parseFloat (pyStrip out) = some d →
      get_duration_from_audio probe parseFloat = d) := by
  refine ⟨?_, ?_, ?_⟩
  · rintro rfl; rfl
  · rintro out rfl hp; simp [get_duration_from_audio, hp]
  · rintro out d rfl hp; simp [get_duration_from_audio, hp]

/-- Witness for C10 at concrete inputs: a failed probe yields 5, a probe
printing `3.5` (with trailing newline) yields `3.5`. -/
theorem get_duration_from_audio_total_witness :
    get_duration_from_audio .calledProcessError (fun _ => none) = 5 ∧
    get_duration_from_audio (.ok "3.5\n") (fun s => if s = "3.5" then some (7/2) else none)
      = 7/2 :=
  ⟨(get_duration_from_audio_total _ _).1 rfl,
   (get_duration_from_audio_total (.ok "3.5\n") _).2.2 "3.5\n" (7/2) rfl (by
      rw [show pyStrip "3.5\n" = "3.5" by decide]
      simp)⟩

/-- Claim C4: `queue_prompt` issues a POST to `/prompt` with the workflow
wrapped under the key `prompt` next to the fixed `client_id`, returns the
reply's `prompt_id` when that field is present and truthy, and raises
`ValueError` when it is absent or falsy. -/
theorem queue_prompt_spec (wf reply : Json) :
    (queue_prompt wf reply).1 =
      ⟨"POST", "/prompt",
        Json.obj [("prompt", wf), ("client_id", Json.str "runpod_handler")]⟩ ∧
    (∀ pid, reply.get? "prompt_id" = some pid → pyTruthy pid = true →
      (queue_prompt wf reply).2 = .ok pid) ∧
    (reply.get? "prompt_id" = none →
      (queue_prompt wf reply).2 =
        .error ⟨"ValueError", "No prompt_id returned from ComfyUI"⟩) ∧
    (∀ pid, reply.get? "prompt_id" = some pid → pyTruthy pid = false →
      (queue_prompt wf reply).2 =
        .error ⟨"ValueError", "No prompt_id returned from ComfyUI"⟩) := by
  refine ⟨rfl, ?_, ?_, ?_⟩
  · intro pid hp ht
    simp [queue_prompt, Json.getD, hp, ht]
  · intro hp
    simp [queue_prompt, Json.getD, hp, pyTruthy]
  · intro pid hp ht
    simp [queue_prompt, Json.getD, hp, ht]

/-- Witness for C4 at concrete replies: a reply carrying `prompt_id =
"test-123"` yields that id, the empty reply raises. -/
theorem queue_prompt_spec_witness :
    (queue_prompt (Json.obj []) (Json.obj [("prompt_id", Json.str "test-123")])).2
        = .ok (Json.str "test-123") ∧
    (queue_prompt (Json.obj []) (Json.obj [])).2 =
        .error ⟨"ValueError", "No prompt_id returned from ComfyUI"⟩ :=
  ⟨(queue_prompt_spec (Json.obj []) _).2.1 (Json.str "test-123") rfl (by decide),
   (queue_prompt_spec (Json.obj []) (Json.obj [])).2.2.1 rfl⟩

/-- Claim C7: `upload_file` performs the SDK upload of the given file at the
given key in the configured bucket, filling in a `ContentType` derived from
the file extension when one is known and not already supplied, and returns
the public URL: `endpoint/bucket/key` under a custom endpoint (the code
first strips trailing slashes from the endpoint), the standard
`https://bucket.s3.region.amazonaws.com/key` otherwise. -/
theorem upload_file_spec (cfg : S3Config) (path key : String)
    (extra : Option (List (String × String))) :
    (upload_file cfg path key extra).1.file = path ∧
    (upload_file cfg path key extra).1.bucket = cfg.bucket ∧
    (upload_file cfg path key extra).1.key = key ∧
    (List.lookup "ContentType" (extra.getD []) = none →
      ∀ ct, get_content_type path = some ct →
        List.lookup "ContentType" (upload_file cfg path key extra).1.extraArgs = some ct) ∧
    (List.lookup "ContentType" (extra.getD []) = none →
      get_content_type path = none →
        (upload_file cfg path key extra).1.extraArgs = extra.getD []) ∧
    (∀ ct0, List.lookup "ContentType" (extra.getD []) = some ct0 →
        (upload_file cfg path key extra).1.extraArgs = extra.getD []) ∧
    (∀ ep, cfg.endpoint = some ep → rstripSlash ep = ep →
        (upload_file cfg path key extra).2 = ep ++ "/" ++ cfg.bucket ++ "/" ++ key) ∧
    (cfg.endpoint = none →
        (upload_file cfg path key extra).2 =
          "https://" ++ cfg.bucket ++ ".s3." ++ cfg.region ++ ".amazonaws.com/" ++ key) := by
  refine ⟨rfl, rfl, rfl, ?_, ?_, ?_, ?_, ?_⟩
  · intro hnone ct hct
    simp [upload_file, hnone, hct, lookup_setKeyList]
  · intro hnone hct
    simp [upload_file, hnone, hct]
  · intro ct0 hct0
    simp [upload_file, hct0]
  · intro ep hep hstrip
    simp [upload_file, generate_url, hep, hstrip]
  · intro hep
    simp [upload_file, generate_url, hep]

/-- Witness for C7 at a concrete upload: an `.mp4` under the default AWS
endpoint gets `ContentType video/mp4` and the standard URL. -/
theorem upload_file_spec_witness :
    List.lookup "ContentType"
        (upload_file ⟨"test-bucket", none, "us-east-1"⟩
          "/workspace/output/video.mp4" "videos/test.mp4" none).1.extraArgs
      = some "video/mp4" ∧
    (upload_file ⟨"test-bucket", none, "us-east-1"⟩
        "/workspace/output/video.mp4" "videos/test.mp4" none).2
      = "https://test-bucket.s3.us-east-1.amazonaws.com/videos/test.mp4" := by
  obtain ⟨-, -, -, h4, -, -, -, h8⟩ :=
    upload_file_spec ⟨"test-bucket", none, "us-east-1"⟩
      "/workspace/output/video.mp4" "videos/test.mp4" none
  refine ⟨h4 rfl "video/mp4" (by decide), ?_⟩
  rw [h8 rfl]
  rfl

end LTX2
